import Mathlib

/-!
Verification of the product_kernel unit-of-work core: a shallow embedding of
the session-binding, transaction-nesting and dependency-injection code in
`src/product_kernel/db/context.py`, `src/product_kernel/db/tx.py`,
`src/product_kernel/db/seed_runner.py`, `src/product_kernel/di/registry.py`,
`src/product_kernel/di/inject.py` and
`src/product_kernel/services/base_service.py`, together with theorems that
settle the behavioural claims made about that code.

Machine-level conventions of the embedding:
  - Python exceptions are an inductive `PyExc`; fallible code returns
    `Except PyExc`.
  - A database session is identified by a natural number; real database
    actions (begin, commit, rollback, execute, close) are recorded in an
    event trace so that claims counting commits and rollbacks are statable.
  - `ContextVar` state is explicit: the session variable keeps its current
    value, a supply of fresh token identifiers, and the set of already-used
    token identifiers, because `ContextVar.reset` on CPython raises
    `RuntimeError` when a token is reset a second time.
  - Registry factories are zero-argument Python callables; they are embedded
    as functions of a global invocation counter so that freshness (a factory
    may return a different instance on each call) is expressible.
-/

namespace ProductKernel

/-- Python exceptions that the modelled code can raise. The first four
constructors are generic builtin exception classes; `userExc` stands for a
distinct application-defined exception type. -/
inductive PyExc where
  | runtimeError (msg : String)
  | valueError (msg : String)
  | keyError (msg : String)
  | typeError (msg : String)
  | userExc (tag : String)
deriving DecidableEq, Repr

instance {ε α : Type} [DecidableEq ε] [DecidableEq α] : DecidableEq (Except ε α) :=
  fun a b =>
    match a, b with
    | .ok x, .ok y =>
      if h : x = y then .isTrue (congrArg Except.ok h)
      else .isFalse (fun hc => h (Except.ok.inj hc))
    | .error x, .error y =>
      if h : x = y then .isTrue (congrArg Except.error h)
      else .isFalse (fun hc => h (Except.error.inj hc))
    | .ok _, .error _ => .isFalse (fun hc => Except.noConfusion hc)
    | .error _, .ok _ => .isFalse (fun hc => Except.noConfusion hc)

/-- True exactly on the generic builtin exception classes, false on distinct
application-defined exception kinds. -/
def isGenericBuiltinExc : PyExc → Bool
  | .runtimeError _ => true
  | .valueError _ => true
  | .keyError _ => true
  | .typeError _ => true
  | .userExc _ => false

/-- Python type annotations as they appear in dependency slots: a plain class
(identified by module and class name) or `Optional[T]`, which Python defines
as `Union[T, None]`. -/
inductive PyType where
  | base (mod : String) (name : String)
  | optionalT (t : PyType)
deriving DecidableEq, Repr

/-- Codomain of `typing.get_origin` in the fragment we use. CPython
normalises `Optional[T]` to `Union[T, None]`, so `get_origin` returns the
`Union` special form for it; the `Optional` special form itself is never
returned by `get_origin` (checked on CPython 3.11: `get_origin(Optional[int])
is Union` evaluates to `True` and `... is Optional` to `False`). -/
inductive TypingOrigin where
  | unionForm
  | optionalForm
deriving DecidableEq, Repr

/-- Embedding of `typing.get_origin` on the annotation fragment above. -/
def get_origin : PyType → Option TypingOrigin
  | .base _ _ => none
  | .optionalT _ => some .unionForm

/-- Embedding of `typing.get_args(typ)[0]` for the shapes the source feeds
it: the first argument of `Union[T, None]` is `T`. -/
def get_args_head : PyType → PyType
  | .base m n => .base m n
  | .optionalT t => t

/-- Embedding of `_unwrap_optional` from `di/inject.py`:
`origin = get_origin(typ); if origin is Optional: return get_args(typ)[0];
return typ`. Because `get_origin` yields the `Union` form for `Optional[T]`,
the unwrap branch is dead code and the function is the identity. -/
def _unwrap_optional (typ : PyType) : PyType :=
  match get_origin typ with
  | some .optionalForm => get_args_head typ
  | _ => typ

/-- `type_.__module__ + "." + type_.__name__` as used in the `resolve` error
message. On CPython 3.11 an `Optional[T]` alias has module `typing` and name
`Optional`. -/
def qualName : PyType → String
  | .base mod name => mod ++ "." ++ name
  | .optionalT _ => "typing.Optional"

/-- Python values stored in dependency slots: `None` or an instance of some
kind, tagged with a numeric identity so that distinct instances produced by
successive factory calls are distinguishable. -/
inductive PyVal where
  | pyNone
  | inst (kind : String) (id : Nat)
deriving DecidableEq, Repr

/-- A registry factory: a zero-argument Python callable, embedded as a
function of the global factory-invocation counter so that per-call freshness
is expressible. It may raise. -/
abbrev Factory := Nat → Except PyExc PyVal

/-- The `_PROVIDERS` dict of `di/registry.py`: kind to factory. Later
registrations are consed on the front and shadow earlier ones, matching dict
overwrite semantics. -/
abbrev Registry := List (PyType × Factory)

/-- Embedding of `register` from `di/registry.py`: store (overwrite) the
factory for a kind. -/
def register (reg : Registry) (k : PyType) (f : Factory) : Registry :=
  (k, f) :: reg

/-- Dict lookup in `_PROVIDERS`: first (most recent) binding wins. -/
def lookupProvider : Registry → PyType → Option Factory
  | [], _ => none
  | (k2, f) :: rest, k => if k2 = k then some f else lookupProvider rest k

/-- The message of the `RuntimeError` raised by `resolve` for a missing
provider: it names the kind, module-qualified. -/
def noProviderMsg (k : PyType) : String :=
  "No provider registered for type " ++ qualName k

/-- Embedding of `resolve` from `di/registry.py`:
`try: return _PROVIDERS[type_]() except KeyError: raise RuntimeError(...)`.
The `except KeyError` catches both the dict-lookup miss and a `KeyError`
raised by the factory itself; any other factory exception propagates. The
returned counter advances exactly when a factory was invoked. -/
def resolve (reg : Registry) (k : PyType) (calls : Nat) :
    Except PyExc PyVal × Nat :=
  match lookupProvider reg k with
  | none => (.error (.runtimeError (noProviderMsg k)), calls)
  | some f =>
    match f calls with
    | .error (.keyError _) => (.error (.runtimeError (noProviderMsg k)), calls + 1)
    | r => (r, calls + 1)

/-- The attribute dictionary of an instance, restricted to dependency slots:
a slot absent from the list models `hasattr` being false. -/
abbrev Slots := List (String × PyVal)

/-- `getattr(obj, n, missing)` on the slot dictionary. -/
def getattrSlot : Slots → String → Option PyVal
  | [], _ => none
  | (n2, v) :: rest, n => if n2 = n then some v else getattrSlot rest n

/-- `setattr(obj, n, v)` on the slot dictionary. -/
def setattrSlot : Slots → String → PyVal → Slots
  | [], n, v => [(n, v)]
  | (n2, v2) :: rest, n, v =>
    if n2 = n then (n2, v) :: rest else (n2, v2) :: setattrSlot rest n v

/-- The non-injectable filter of `autowire`: `name.startswith("_")`, true
exactly when the first character of the slot name is an underscore. -/
def startsWithUnderscore (name : String) : Bool :=
  match name.data with
  | [] => false
  | c :: _ => c == Char.ofNat 95

/-- The skip condition of `autowire`:
`hasattr(obj, name) and getattr(obj, name) is not None`. -/
def slotSetNonNone (vals : Slots) (n : String) : Bool :=
  match getattrSlot vals n with
  | some PyVal.pyNone => false
  | some _ => true
  | none => false

/-- Embedding of `autowire` from `di/inject.py`. It walks the declared type
hints of the class; for each public slot that is missing or `None` it calls
`resolve` on the (supposedly unwrapped) annotation, silently skipping the
slot when `resolve` raises `RuntimeError` and propagating any other
exception; otherwise it assigns the resolved value. Returns the slot
dictionary (or the propagated exception) and the factory-invocation
counter. -/
def autowire (reg : Registry) :
    List (String × PyType) → Slots → Nat → Except PyExc Slots × Nat
  | [], vals, calls => (.ok vals, calls)
  | (name, typ) :: rest, vals, calls =>
    if startsWithUnderscore name then
      autowire reg rest vals calls
    else if slotSetNonNone vals name then
      autowire reg rest vals calls
    else
      match resolve reg (_unwrap_optional typ) calls with
      | (.error (.runtimeError _), c2) => autowire reg rest vals c2
      | (.error e, c2) => (.error e, c2)
      | (.ok v, c2) => autowire reg rest (setattrSlot vals name v) c2

/-- A registry whose factories are stateless: the value a factory produces
does not depend on how many factory invocations happened before. The spec
data model requires registry entries to be stateless factories. -/
def ConstantFactories (reg : Registry) : Prop :=
  ∀ p ∈ reg, ∀ c c2 : Nat, p.2 c = p.2 c2

/-- A kind used by the registry scenarios. -/
def repoKindX : PyType := .base "app.repos" "RepoKindX"

/-- A kind used by the wiring scenarios. -/
def usersRepoKind : PyType := .base "app.repos" "UsersRepo"

/-- `Optional[UsersRepo]`. -/
def optUsersKind : PyType := .optionalT usersRepoKind

/-- A factory returning a fresh instance on every invocation: the produced
instance carries the invocation counter as its identity. -/
def freshUsersFactory : Factory := fun c => .ok (.inst "UsersRepo" c)

/-- A stateless factory always returning the same instance. -/
def constUsersFactory : Factory := fun _ => .ok (.inst "UsersRepo" 0)

/-- A factory that itself raises `KeyError` when invoked. -/
def keyErrorFactory (msg : String) : Factory := fun _ => .error (.keyError msg)

/-- Token returned by `ContextVar.set` on the session variable: a fresh
identifier plus the binding that was current when the token was issued. -/
structure SessToken where
  id : Nat
  old : Option Nat
deriving DecidableEq, Repr

/-- The `_session_cv` ContextVar of `db/context.py` for one execution unit:
its current value (`none` models the default, no session bound), a supply of
fresh token identifiers, and the identifiers of tokens already spent by
`reset`. -/
structure SessionVar where
  value : Option Nat
  nextId : Nat
  used : List Nat
deriving DecidableEq, Repr

/-- The session variable of a freshly started execution unit. -/
def SessionVar.init : SessionVar := { value := none, nextId := 0, used := [] }

/-- `ContextVar.set`: install a new value, hand back a token holding the
previous one. -/
def cvSet (v : SessionVar) (s : Option Nat) : SessionVar × SessToken :=
  ({ value := s, nextId := v.nextId + 1, used := v.used },
   { id := v.nextId, old := v.value })

/-- `ContextVar.reset`: restore the binding stored in the token. CPython
raises `RuntimeError` when the same token is reset twice (checked on CPython
3.11: the message ends in "has already been used once"). -/
def cvReset (v : SessionVar) (t : SessToken) : Except PyExc SessionVar :=
  if t.id ∈ v.used then
    .error (.runtimeError "Token has already been used once")
  else
    .ok { value := t.old, nextId := v.nextId, used := t.id :: v.used }

/-- Message of the `RuntimeError` that `get_session` raises when no session
is bound; the failure the spec calls `NotBound`. -/
def notBoundMsg : String :=
  "No AsyncSession bound in current context. " ++
  "Did you call set_session(sess) in seed_runner or middleware?"

/-- Embedding of `set_session` from `db/context.py`: reject `None`, else bind
and return the ContextVar token. -/
def set_session (v : SessionVar) (s : Option Nat) :
    Except PyExc (SessionVar × SessToken) :=
  match s with
  | none => .error (.valueError "set_session() requires a non-None AsyncSession")
  | some _ => .ok (cvSet v s)

/-- Embedding of `reset_session` from `db/context.py`. -/
def reset_session (v : SessionVar) (t : SessToken) : Except PyExc SessionVar :=
  cvReset v t

/-- Embedding of `get_session` from `db/context.py`: the bound session, or
the `NotBound` RuntimeError. -/
def get_session (v : SessionVar) : Except PyExc Nat :=
  match v.value with
  | none => .error (.runtimeError notBoundMsg)
  | some s => .ok s

/-- Modelled from the spec: `clear_session` is imported and called by
`services/base_service.py` (import on line 17, call on line 73) but is not
defined in any source file of the repository. Spec 4.5 and end-to-end
scenario 4 require the standalone scope to leave the unit unbound on exit
("on scope exit is unbound and closed; calling current() after exit raises
NotBound"), so `clear_session` clears the current binding of the execution
unit. -/
def clear_session (v : SessionVar) : SessionVar :=
  { v with value := none }

/-- Real observable actions on the database layer, tagged with the session
identifier they act on. -/
inductive Ev where
  | sessCreated (s : Nat)
  | sessClosed (s : Nat)
  | beginTx (s : Nat)
  | commitTx (s : Nat)
  | rollbackTx (s : Nat)
  | sqlExec (s : Nat)
  | seedRun (s : Nat)
deriving DecidableEq, Repr

/-- The state of one execution unit: its session ContextVar, the
`_tx_depth` ContextVar value, a log of every value assigned to `_tx_depth`
(to state that the depth stays nonnegative throughout), the trace of real
database events, and a supply of fresh session identifiers. -/
structure World where
  sv : SessionVar
  depth : Int
  depthLog : List Int
  events : List Ev
  nextSess : Nat
deriving DecidableEq, Repr

/-- A computation over one execution unit: Python code that may raise. State
mutations performed before a raise persist, as in Python. -/
abbrev Comp (α : Type) := World → Except PyExc α × World

/-- Append a real database event to the trace. -/
def emit (w : World) (e : Ev) : World :=
  { w with events := w.events ++ [e] }

/-- Assign a value to the `_tx_depth` ContextVar, logging it. Depth tokens
are embedded as the saved previous value: every `_tx_depth` token in the
source is created and reset exactly once, in a bracketed set/finally-reset
pair, so the used-token error is unreachable for this variable. -/
def setDepth (w : World) (d : Int) : World :=
  { w with depth := d, depthLog := w.depthLog ++ [d] }

/-- Embedding of the `transactional` decorator from `db/tx.py`: look up the
bound session, run the wrapped coroutine, then `await session.commit()` on
success or `await session.rollback()` on any exception, re-raising the
original exception. It does not consult the `_tx_depth` counter. -/
def transactional {α : Type} (fn : Comp α) : Comp α := fun w =>
  match get_session w.sv with
  | .error e => (.error e, w)
  | .ok s =>
    match fn w with
    | (.ok a, w2) => (.ok a, emit w2 (.commitTx s))
    | (.error e, w2) => (.error e, emit w2 (.rollbackTx s))

/-- Embedding of `session_in_transaction` from `db/context.py` applied to a
body. At depth 0 it sets the depth to 1, opens the real transaction with
`sess.begin()`, runs the body, restores the depth in the `finally`, and the
`sess.begin()` context manager then commits on success or rolls back on
failure, re-raising the failure. At positive depth it only increments the
depth for the body and restores it afterwards. -/
def session_in_transaction {α : Type} (body : Comp α) : Comp α := fun w =>
  match get_session w.sv with
  | .error e => (.error e, w)
  | .ok s =>
    if w.depth = 0 then
      let w1 := emit (setDepth w 1) (.beginTx s)
      match body w1 with
      | (.ok a, w2) => (.ok a, emit (setDepth w2 w.depth) (.commitTx s))
      | (.error e, w2) => (.error e, emit (setDepth w2 w.depth) (.rollbackTx s))
    else
      let w1 := setDepth w (w.depth + 1)
      match body w1 with
      | (r, w2) => (r, setDepth w2 w.depth)

/-- `n` nested entries of the transaction boundary around a body. -/
def nestTx {α : Type} (body : Comp α) : Nat → Comp α
  | 0 => body
  | n + 1 => session_in_transaction (nestTx body n)

/-- The `_tx_depth` assignments performed by `n` nested inner scopes entered
at depth `d`: up to `d + n` and back down to `d`. -/
def innerLog : Nat → Int → List Int
  | 0, _ => []
  | n + 1, d => (d + 1) :: (innerLog n (d + 1) ++ [d])

/-- Embedding of `BaseService.new_session` from `services/base_service.py`
applied to a body (the code in the `with` block; it receives the session the
scope provides). If a session is already bound it is reused and simply
yielded. Otherwise `async_session()` opens a fresh session (closed when that
context exits), `set_session` binds it (the token is discarded by the
source), the body runs, the session is committed on success or rolled back
on failure with the failure re-raised, and the `finally` calls
`clear_session`. -/
def new_session {α : Type} (body : Nat → Comp α) : Comp α := fun w =>
  match get_session w.sv with
  | .ok s => body s w
  | .error _ =>
    let s := w.nextSess
    let w1 := emit { w with nextSess := w.nextSess + 1 } (.sessCreated s)
    match set_session w1.sv (some s) with
    | .error e => (.error e, w1)
    | .ok (sv2, _tok) =>
      let w2 := { w1 with sv := sv2 }
      match body s w2 with
      | (.ok a, w3) =>
        let w4 := { emit w3 (.commitTx s) with sv := clear_session w3.sv }
        (.ok a, emit w4 (.sessClosed s))
      | (.error e, w3) =>
        let w4 := { emit w3 (.rollbackTx s) with sv := clear_session w3.sv }
        (.error e, emit w4 (.sessClosed s))

/-- Embedding of `_run_one_seed` from `db/seed_runner.py`, from the point
where the module has been loaded and has an async `run` (lines 75 to 111),
applied to that `run` function. It opens a session, binds it keeping the
token, opens the real transaction with `sess.begin()`, runs the connectivity
probe, then awaits the seed body and, if that returned normally, awaits it a
second time; the `sess.begin()` exit commits or rolls back, the broad
`except Exception` swallows any failure after printing it, and the `finally`
resets the binding before the session context closes the session. -/
def run_one_seed (seed : Nat → Comp Unit) : Comp Unit := fun w =>
  let s := w.nextSess
  let w1 := emit { w with nextSess := w.nextSess + 1 } (.sessCreated s)
  match set_session w1.sv (some s) with
  | .error e => (.error e, w1)
  | .ok (sv2, tok) =>
    let w2 := emit (emit { w1 with sv := sv2 } (.beginTx s)) (.sqlExec s)
    let finish : World → Except PyExc Unit × World := fun wf =>
      match reset_session wf.sv tok with
      | .error e => (.error e, wf)
      | .ok sv3 => (.ok (), emit { wf with sv := sv3 } (.sessClosed s))
    match seed s w2 with
    | (.error _, w3) => finish (emit w3 (.rollbackTx s))
    | (.ok _, w3) =>
      match seed s w3 with
      | (.error _, w4) => finish (emit w4 (.rollbackTx s))
      | (.ok _, w4) => finish (emit w4 (.commitTx s))

/-- A service instance as the wiring machinery sees it: the declared type
hints of its class and its current slot dictionary. -/
structure Service where
  hints : List (String × PyType)
  slots : Slots
deriving DecidableEq, Repr

/-- Embedding of `BaseService.__init__` with no session argument: read the
bound session (raising `NotBound` if none) and run `autowire(self)` once, at
construction. -/
def service_init (hints : List (String × PyType)) (reg : Registry)
    (v : SessionVar) (calls : Nat) : Except PyExc Service × Nat :=
  match get_session v with
  | .error e => (.error e, calls)
  | .ok _ =>
    match autowire reg hints [] calls with
    | (.ok vals, c2) => (.ok { hints := hints, slots := vals }, c2)
    | (.error e, c2) => (.error e, c2)

/-- Invocation of a `transactional`-wrapped public service method: the
wrapper from `db/tx.py` runs around the body, which observes the slot
dictionary the instance has at call time. The wrapper contains no call to
`autowire`, so the slots reaching the body are exactly `svc.slots`. -/
def invoke_wrapped {α : Type} (svc : Service) (body : Slots → Comp α) :
    Comp α :=
  transactional (body svc.slots)

/-- An execution unit that has session `s` bound (one `set` already
performed) and no transaction open. -/
def worldBound (s : Nat) : World :=
  { sv := { value := some s, nextId := 1, used := [] },
    depth := 0, depthLog := [], events := [], nextSess := s + 1 }

/-- A fresh execution unit with nothing bound; new sessions start at `n`. -/
def emptyWorldAt (n : Nat) : World :=
  { sv := SessionVar.init, depth := 0, depthLog := [], events := [],
    nextSess := n }

/-- A service body that raises: the inner method `M2` of end-to-end
scenario 2. -/
def m2Body : Comp Unit := fun w => (.error (.userExc "M2 failure"), w)

/-- `M2 = @transactional async def m2: raise`. -/
def serviceM2 : Comp Unit := transactional m2Body

/-- `M1 = @transactional async def m1: await m2()`. -/
def serviceM1 : Comp Unit := transactional serviceM2

/-- A seed body that raises on its first await, after performing its effect
once. -/
def failSeed : Nat → Comp Unit :=
  fun s w => (.error (.userExc "seed failure"), emit w (.seedRun s))

/-- A seed body that records one `seedRun` effect per await and returns. -/
def instrSeed : Nat → Comp Unit :=
  fun s w => (.ok (), emit w (.seedRun s))

/-- The token-correctness chain of the spec: `bind(S1)`, `bind(S2)`,
`unbind(token2)`, `unbind(token1)` on a fresh execution unit. -/
def bindBindUnbindUnbind (s1 s2 : Nat) : Except PyExc SessionVar := do
  let (v1, t1) ← set_session SessionVar.init (some s1)
  let (v2, t2) ← set_session v1 (some s2)
  let v3 ← reset_session v2 t2
  reset_session v3 t1

/-- `bind(S1)` then `unbind(token1)` once: the state after the first,
legitimate unbind. -/
def bindUnbindOnce (s1 : Nat) : Except PyExc (SessionVar × SessToken) := do
  let (v1, t1) ← set_session SessionVar.init (some s1)
  let v2 ← reset_session v1 t1
  .ok (v2, t1)

/-- `bind(S1)` then `unbind(token1)` twice: the outcome of the second
unbind. -/
def bindUnbindTwice (s1 : Nat) : Except PyExc SessionVar := do
  let (v2, t1) ← bindUnbindOnce s1
  reset_session v2 t1

/-- C1. The claim asserts that when transactional method M1 internally calls
transactional method M2 and M2 raises, the bound session receives exactly one
rollback, zero commits, and the original error propagates. The code disagrees
on the rollback count: the `transactional` wrapper in `db/tx.py` never
consults the `_tx_depth` counter that `db/context.py` declares "for nested
@transactional calls", so the failing inner wrapper rolls the session back
and re-raises, and the outer wrapper catches the same exception and rolls
back again: two rollbacks. Zero commits and original-error propagation do
hold. This theorem evaluates the composed execution at the failing input
(session 2 bound, M2 raising `userExc "M2 failure"`). -/
theorem nested_transactional_double_rollback :
    serviceM1 (worldBound 2)
      = (.error (.userExc "M2 failure"),
         { sv := { value := some 2, nextId := 1, used := [] }, depth := 0,
           depthLog := [], events := [.rollbackTx 2, .rollbackTx 2],
           nextSess := 3 })
    ∧ (serviceM1 (worldBound 2)).2.events.count (Ev.rollbackTx 2) = 2
    ∧ (serviceM1 (worldBound 2)).2.events.count (Ev.commitTx 2) = 0
    ∧ (serviceM1 (worldBound 2)).1 = .error (.userExc "M2 failure") := by
  refine ⟨rfl, ?_, ?_, rfl⟩ <;> decide

/-- C3. Standalone scope from `BaseService.new_session` (with `clear_session`
modelled from the spec): with no session bound, entering the scope creates
session 0, binds it for the duration of the body (a body reading the current
binding sees exactly the created session), and on exit, both after a normal
return and after a raised failure, the session is committed or rolled back,
unbound and closed, after which `get_session` fails with the NotBound
RuntimeError; with a session already bound, the scope reuses it transparently
and performs no session creation and no lifecycle events at all. -/
theorem new_session_scope_lifecycle :
    ∀ (e : PyExc) (s0 : Nat),
    new_session (fun _ w => (get_session w.sv, w)) (emptyWorldAt 0)
      = (.ok 0,
         { sv := { value := none, nextId := 1, used := [] }, depth := 0,
           depthLog := [],
           events := [.sessCreated 0, .commitTx 0, .sessClosed 0],
           nextSess := 1 })
    ∧ new_session (fun _ w => ((.error e : Except PyExc Nat), w)) (emptyWorldAt 0)
      = (.error e,
         { sv := { value := none, nextId := 1, used := [] }, depth := 0,
           depthLog := [],
           events := [.sessCreated 0, .rollbackTx 0, .sessClosed 0],
           nextSess := 1 })
    ∧ get_session { value := none, nextId := 1, used := [] }
      = .error (.runtimeError notBoundMsg)
    ∧ new_session (fun _ w => (get_session w.sv, w)) (worldBound s0)
      = (.ok s0, worldBound s0) := by
  intro e s0
  exact ⟨rfl, rfl, rfl, rfl⟩

/-- C4. The claim (and the docstring of `di/inject.py`) requires auto-wiring
to run immediately before the body of every wrapped service operation. In
the code `autowire` runs only once, inside `BaseService.__init__`; the
`transactional` wrapper in `db/tx.py` contains no wiring step. Failing
input: a service with slot `users : UsersRepo` constructed while the
registry is empty (the slot is skipped and stays unset), after which the
provider is registered and a wrapped method is invoked. The body still
observes the unwired slot dictionary, although a wiring pass against the
now-populated registry would fill the slot. -/
theorem autowire_only_at_construction :
    service_init [("users", usersRepoKind)] []
        { value := some 9, nextId := 1, used := [] } 0
      = (.ok { hints := [("users", usersRepoKind)], slots := [] }, 0)
    ∧ invoke_wrapped { hints := [("users", usersRepoKind)], slots := [] }
        (fun sl => fun w => (.ok sl, w)) (worldBound 9)
      = (.ok [], { worldBound 9 with events := [.commitTx 9] })
    ∧ autowire (register [] usersRepoKind freshUsersFactory)
        [("users", usersRepoKind)] [] 0
      = (.ok [("users", .inst "UsersRepo" 0)], 1) := by
  refine ⟨?_, rfl, ?_⟩ <;> decide

/-- C5. The claim says an unset `Optional[T]` slot is resolved and assigned
when `T` has a registered factory. In the code `_unwrap_optional` compares
`get_origin(typ)` against the `Optional` special form, which `get_origin`
never returns (CPython yields the `Union` form for `Optional[T]`), so the
unwrap is the identity; `resolve` is then called with the `Optional[T]`
alias itself, which is never a registered key, raises the no-provider
RuntimeError and the slot is silently skipped even though `T` is registered
(contradicting the "Supports Optional[T]" docstrings in `di/inject.py`).
The second half of the claim, silent skipping when `T` is unregistered, does
hold. -/
theorem optional_slot_skipped_even_when_registered :
    _unwrap_optional optUsersKind = optUsersKind
    ∧ autowire (register [] usersRepoKind freshUsersFactory)
        [("maybe_users", optUsersKind)] [] 0 = (.ok [], 0)
    ∧ autowire [] [("maybe_users", optUsersKind)] [] 0 = (.ok [], 0) := by
  refine ⟨rfl, ?_, ?_⟩ <;> decide

/-- C6. Token correctness of the session binding: on one execution unit,
`bind(S1)`, `bind(S2)`, `unbind(token2)`, `unbind(token1)` leaves the unit
with no binding and `get_session` fails with the NotBound RuntimeError; and
after `bind(S1)` a first `unbind(token1)` restores the empty binding while a
second `unbind(token1)` raises the benign used-token RuntimeError, producing
no new state for this unit (and the model is per-unit state passing, so no
sibling unit state is touched). -/
theorem bind_unbind_token_correctness :
    ∀ s1 s2 : Nat,
    bindBindUnbindUnbind s1 s2
      = .ok { value := none, nextId := 2, used := [0, 1] }
    ∧ get_session { value := none, nextId := 2, used := [0, 1] }
      = .error (.runtimeError notBoundMsg)
    ∧ bindUnbindOnce s1
      = .ok ({ value := none, nextId := 1, used := [0] }, { id := 0, old := none })
    ∧ bindUnbindTwice s1
      = .error (.runtimeError "Token has already been used once") := by
  intro s1 s2
  exact ⟨rfl, rfl, rfl, rfl⟩

/-- C7, counterexample. The claim says `resolve` on an unregistered kind
fails with a distinct `UnregisteredKind` error, not a generic exception. The
repository defines no such exception class: `resolve` raises the builtin
`RuntimeError` (a generic exception kind), as this evaluation at the
unregistered kind `RepoKindX` shows; the message does name the kind. -/
theorem resolve_unregistered_generic_runtime_error :
    resolve [] repoKindX 0
      = (.error (.runtimeError "No provider registered for type app.repos.RepoKindX"), 0)
    ∧ isGenericBuiltinExc
        (.runtimeError "No provider registered for type app.repos.RepoKindX")
      = true := by
  exact ⟨rfl, rfl⟩

/-- C7, amended. For an unregistered kind, `resolve` fails with the builtin
`RuntimeError` whose message names the kind module-qualified (not with a
distinct `UnregisteredKind` exception type); for a registered kind whose
factory does not raise `KeyError`, every call invokes the factory afresh at
the current invocation counter and advances the counter, and the registry
keeps no cache: with a factory producing a fresh instance per invocation,
two consecutive resolves return different instances. -/
theorem resolve_names_kind_and_invokes_factory_fresh :
    ∀ (reg : Registry) (k : PyType) (c : Nat),
    (lookupProvider reg k = none →
      resolve reg k c = (.error (.runtimeError (noProviderMsg k)), c))
    ∧ (∀ f : Factory, lookupProvider reg k = some f →
        (∀ m, f c ≠ .error (.keyError m)) →
        resolve reg k c = (f c, c + 1))
    ∧ (resolve [(k, freshUsersFactory)] k c).1
        ≠ (resolve [(k, freshUsersFactory)] k (c + 1)).1 := by
  intro reg k c
  refine ⟨fun h => by simp [resolve, h], fun f hf hk => ?_, ?_⟩
  · simp only [resolve, hf]
  · simp [resolve, lookupProvider, freshUsersFactory]

/-- Witness for C7: the amended theorem applied at concrete inputs, with the
lookup hypotheses discharged by evaluation. -/
theorem resolve_names_kind_witness :
    resolve [] repoKindX 5
      = (.error (.runtimeError (noProviderMsg repoKindX)), 5)
    ∧ resolve [(repoKindX, constUsersFactory)] repoKindX 5
      = (constUsersFactory 5, 6) :=
  ⟨(resolve_names_kind_and_invokes_factory_fresh [] repoKindX 5).1 rfl,
   (resolve_names_kind_and_invokes_factory_fresh
      [(repoKindX, constUsersFactory)] repoKindX 5).2.1 constUsersFactory rfl
      (fun m => by simp [constUsersFactory])⟩

/-- C9, counterexample. The claim quantifies over every seed module with an
async `run` that imports successfully. For a seed whose `run` raises on its
first await, the runner never reaches the duplicated second await: the run
function is awaited exactly once, not twice (and the failure is swallowed,
the runner returning normally). -/
theorem seed_awaited_once_when_seed_raises :
    (run_one_seed failSeed (emptyWorldAt 0)).2.events.count (Ev.seedRun 0) = 1
    ∧ ¬ (run_one_seed failSeed (emptyWorldAt 0)).2.events.count (Ev.seedRun 0) = 2
    ∧ (run_one_seed failSeed (emptyWorldAt 0)).1 = .ok () := by
  refine ⟨?_, ?_, rfl⟩ <;> decide

/-- C9, amended. For every seed whose `run` completes normally (each await
records one `seedRun` effect and returns), one execution of the single-seed
runner awaits the run function twice: the trace holds exactly two `seedRun`
events, both strictly between the single `beginTx` and the single `commitTx`
of the one open transaction, all inside the single bind/unbind of the one
created session, so the database effects of the seed are applied twice per
run. -/
theorem seed_run_awaited_twice :
    ∀ seed : Nat → Comp Unit,
    (∀ s w, seed s w = (.ok (), emit w (.seedRun s))) →
    run_one_seed seed (emptyWorldAt 0)
      = (.ok (),
         { sv := { value := none, nextId := 1, used := [0] }, depth := 0,
           depthLog := [],
           events := [.sessCreated 0, .beginTx 0, .sqlExec 0, .seedRun 0,
                      .seedRun 0, .commitTx 0, .sessClosed 0],
           nextSess := 1 }) := by
  intro seed h
  simp only [run_one_seed, h]
  rfl

/-- Witness for C9: the amended theorem applied to the instrumented seed. -/
theorem seed_run_awaited_twice_witness :
    run_one_seed instrSeed (emptyWorldAt 0)
      = (.ok (),
         { sv := { value := none, nextId := 1, used := [0] }, depth := 0,
           depthLog := [],
           events := [.sessCreated 0, .beginTx 0, .sqlExec 0, .seedRun 0,
                      .seedRun 0, .commitTx 0, .sessClosed 0],
           nextSess := 1 }) :=
  seed_run_awaited_twice instrSeed (fun _ _ => rfl)

/-- Helper: inside an already-open transaction (depth at least 1), any
number of further nested entries of the transaction boundary is a pure
passthrough: the body result propagates unchanged, no real database event
is emitted, and the depth is restored, the only trace being the depth
accounting. -/
theorem nestTx_passthrough (res : Except PyExc Unit) :
    ∀ (m : Nat) (w : World) (s : Nat), w.sv.value = some s → 1 ≤ w.depth →
    nestTx (fun w2 => (res, w2)) m w
      = (res, { w with depthLog := w.depthLog ++ innerLog m w.depth }) := by
  intro m
  induction m with
  | zero =>
    intro w s hs hd
    simp [nestTx, innerLog]
  | succ m ih =>
    intro w s hs hd
    have hne : ¬ w.depth = 0 := by omega
    simp only [nestTx, session_in_transaction, get_session, hs, hne, if_false, setDepth]
    rw [ih { w with depth := w.depth + 1, depthLog := w.depthLog ++ [w.depth + 1] } s
        (by simpa using hs) (by simp; omega)]
    simp [innerLog, setDepth]

/-- Helper: every depth value logged by nested inner scopes entered at a
nonnegative depth is nonnegative. -/
theorem innerLog_nonneg :
    ∀ (m : Nat) (d : Int), 0 ≤ d → ∀ x ∈ innerLog m d, 0 ≤ x := by
  intro m
  induction m with
  | zero => intro d hd x hx; simp [innerLog] at hx
  | succ m ih =>
    intro d hd x hx
    simp [innerLog] at hx
    rcases hx with rfl | hx | rfl
    · omega
    · exact ih (d + 1) (by omega) x hx
    · exact hd

/-- Helper: the full trace of `m + 1` nested transaction-boundary entries
around a pure body, started on a bound session at depth 0: the depth goes
1, 2, ..., m + 1, back down to 0, and the only real database events are one
`beginTx` followed by one `commitTx` (body succeeded) or one `rollbackTx`
(body raised), the body result propagating unchanged. -/
theorem nesting_run (m s : Nat) (res : Except PyExc Unit) :
    nestTx (fun w => (res, w)) (m + 1) (worldBound s)
      = (res,
         { sv := { value := some s, nextId := 1, used := [] }, depth := 0,
           depthLog := (1 :: innerLog m 1) ++ [0],
           events := [.beginTx s,
                      (match res with
                       | .ok _ => Ev.commitTx s
                       | .error _ => Ev.rollbackTx s)],
           nextSess := s + 1 }) := by
  have hpass := nestTx_passthrough res m
      { sv := { value := some s, nextId := 1, used := [] }, depth := 1,
        depthLog := [1], events := [.beginTx s], nextSess := s + 1 } s rfl
      (by norm_num)
  simp only [nestTx, session_in_transaction, get_session, worldBound, emit, setDepth]
  simp only [List.nil_append]
  rw [hpass]
  cases res with
  | ok a => simp
  | error e => simp

/-- C2. Nesting idempotence of the transaction boundary: for every N at
least 1, entering `session_in_transaction` N times nested and exiting N
times, within one unit of work with a bound session, opens exactly one real
transaction (one `beginTx`), performs exactly one real commit on success and
exactly one real rollback on failure (and never the other), propagates the
body outcome unchanged, keeps every value ever assigned to the nesting depth
nonnegative, and returns the depth to 0 on both exit paths. -/
theorem nesting_idempotence :
    ∀ (n s : Nat) (res : Except PyExc Unit), 1 ≤ n →
    (nestTx (fun w => (res, w)) n (worldBound s)).1 = res
    ∧ (nestTx (fun w => (res, w)) n (worldBound s)).2.depth = 0
    ∧ (nestTx (fun w => (res, w)) n (worldBound s)).2.events.count (Ev.beginTx s) = 1
    ∧ (nestTx (fun w => (res, w)) n (worldBound s)).2.events.count (Ev.commitTx s)
        = (match res with | .ok _ => 1 | .error _ => 0)
    ∧ (nestTx (fun w => (res, w)) n (worldBound s)).2.events.count (Ev.rollbackTx s)
        = (match res with | .ok _ => 0 | .error _ => 1)
    ∧ (∀ d ∈ (nestTx (fun w => (res, w)) n (worldBound s)).2.depthLog, 0 ≤ d) := by
  intro n s res hn
  obtain ⟨m, rfl⟩ : ∃ m, n = m + 1 := ⟨n - 1, by omega⟩
  rw [nesting_run m s res]
  refine ⟨rfl, rfl, ?_, ?_, ?_, ?_⟩
  · cases res <;> simp [List.count_cons]
  · cases res <;> simp [List.count_cons]
  · cases res <;> simp [List.count_cons]
  · intro d hd
    simp at hd
    rcases hd with rfl | hd | rfl
    · omega
    · exact innerLog_nonneg m 1 (by omega) d hd
    · omega

/-- Witness for C2: the nesting-idempotence theorem applied at N = 3, a
bound session 5 and a successful body. -/
theorem nesting_idempotence_witness :
    (nestTx (fun w => ((Except.ok () : Except PyExc Unit), w)) 3 (worldBound 5)).1 = Except.ok ()
    ∧ (nestTx (fun w => ((Except.ok () : Except PyExc Unit), w)) 3 (worldBound 5)).2.depth = 0
    ∧ (nestTx (fun w => ((Except.ok () : Except PyExc Unit), w)) 3 (worldBound 5)).2.events.count (Ev.beginTx 5) = 1
    ∧ (nestTx (fun w => ((Except.ok () : Except PyExc Unit), w)) 3 (worldBound 5)).2.events.count (Ev.commitTx 5) = 1
    ∧ (nestTx (fun w => ((Except.ok () : Except PyExc Unit), w)) 3 (worldBound 5)).2.events.count (Ev.rollbackTx 5) = 0
    ∧ (∀ d ∈ (nestTx (fun w => ((Except.ok () : Except PyExc Unit), w)) 3 (worldBound 5)).2.depthLog, 0 ≤ d) :=
  nesting_idempotence 3 5 (Except.ok ()) (by norm_num)

/-- C10. A registered factory that itself raises `KeyError` is
indistinguishable from an unregistered kind: the `except KeyError` in
`resolve` catches the factory failure too and converts it into the same
no-provider RuntimeError that a missing registration produces. -/
theorem resolve_masks_factory_keyerror :
    ∀ (k : PyType) (msg : String) (c : Nat),
    (resolve [(k, keyErrorFactory msg)] k c).1
      = .error (.runtimeError (noProviderMsg k))
    ∧ (resolve [(k, keyErrorFactory msg)] k c).1 = (resolve [] k c).1 := by
  intro k msg c
  constructor <;> simp [resolve, lookupProvider, keyErrorFactory]

/-- Helper: reading back a slot just written. -/
theorem getattr_setattr_self :
    ∀ (vals : Slots) (n : String) (v : PyVal),
    getattrSlot (setattrSlot vals n v) n = some v := by
  intro vals n v
  induction vals with
  | nil => simp [setattrSlot, getattrSlot]
  | cons p rest ih =>
    obtain ⟨n2, v2⟩ := p
    by_cases h : n2 = n <;> simp [setattrSlot, getattrSlot, h, ih]

/-- Helper: writing one slot leaves every other slot unchanged. -/
theorem getattr_setattr_ne :
    ∀ (vals : Slots) (n m : String) (v : PyVal), m ≠ n →
    getattrSlot (setattrSlot vals m v) n = getattrSlot vals n := by
  intro vals n m v hne
  induction vals with
  | nil => simp [setattrSlot, getattrSlot, hne]
  | cons p rest ih =>
    obtain ⟨n2, v2⟩ := p
    by_cases h : n2 = m
    · subst h; simp [setattrSlot, getattrSlot, hne]
    · simp [setattrSlot, getattrSlot, h, ih]

/-- Helper: rewriting a slot with the value it already holds is the
identity. -/
theorem setattr_id_of_getattr :
    ∀ (vals : Slots) (n : String) (v : PyVal),
    getattrSlot vals n = some v → setattrSlot vals n v = vals := by
  intro vals n v
  induction vals with
  | nil => intro h; cases h
  | cons p rest ih =>
    obtain ⟨n2, v2⟩ := p
    by_cases h : n2 = n
    · subst h
      simp [getattrSlot, setattrSlot]
      intro h2; exact h2.symm
    · intro h2
      simp only [getattrSlot, if_neg h] at h2
      simp [setattrSlot, h, ih h2]

/-- Helper: a successful registry lookup returns a registered pair. -/
theorem lookupProvider_mem :
    ∀ (reg : Registry) (k : PyType) (f : Factory),
    lookupProvider reg k = some f → (k, f) ∈ reg := by
  intro reg k f
  induction reg with
  | nil => intro h; cases h
  | cons p rest ih =>
    obtain ⟨k2, f2⟩ := p
    by_cases h : k2 = k
    · subst h
      simp [lookupProvider]
      intro h2; left; exact h2.symm
    · simp [lookupProvider, h]
      intro h2; right; exact ih h2

/-- Helper: over a registry of stateless factories, the value component of
`resolve` does not depend on the invocation counter. -/
theorem resolve_fst_const :
    ∀ (reg : Registry), ConstantFactories reg →
    ∀ (k : PyType) (a b : Nat), (resolve reg k a).1 = (resolve reg k b).1 := by
  intro reg hconst k a b
  cases hl : lookupProvider reg k with
  | none => simp [resolve, hl]
  | some f =>
    have hf : f a = f b := hconst (k, f) (lookupProvider_mem reg k f hl) a b
    simp only [resolve, hl]
    rw [hf]
    cases f b with
    | ok v => rfl
    | error e => cases e <;> rfl

/-- Helper: characterisation of the skip condition of `autowire`. -/
theorem slotSetNonNone_true_iff :
    ∀ (vals : Slots) (n : String),
    slotSetNonNone vals n = true ↔
      ∃ v, getattrSlot vals n = some v ∧ v ≠ PyVal.pyNone := by
  intro vals n
  unfold slotSetNonNone
  cases hg : getattrSlot vals n with
  | none => simp
  | some v => cases v <;> simp

/-- Helper: a slot failing the skip condition but holding a value holds
`None`. -/
theorem slotSetNonNone_false_of :
    ∀ (vals : Slots) (n : String) (v : PyVal), slotSetNonNone vals n = false →
    getattrSlot vals n = some v → v = PyVal.pyNone := by
  intro vals n v hf hg
  unfold slotSetNonNone at hf
  rw [hg] at hf
  cases v with
  | pyNone => rfl
  | inst k i => simp at hf

/-- Helper: a successful `autowire` pass never touches a slot whose name is
not among the declared hints. -/
theorem autowire_untouched :
    ∀ (hints : List (String × PyType)) (reg : Registry) (vals vals2 : Slots)
      (calls c2 : Nat) (n : String),
    autowire reg hints vals calls = (.ok vals2, c2) →
    n ∉ hints.map Prod.fst →
    getattrSlot vals2 n = getattrSlot vals n := by
  intro hints
  induction hints with
  | nil =>
    intro reg vals vals2 calls c2 n h hn
    simp [autowire] at h
    rw [h.1]
  | cons p rest ih =>
    obtain ⟨name, typ⟩ := p
    intro reg vals vals2 calls c2 n h hn
    simp only [List.map_cons, List.mem_cons, not_or] at hn
    obtain ⟨hn1, hn2⟩ := hn
    simp only [autowire] at h
    by_cases h1 : startsWithUnderscore name = true
    · rw [if_pos h1] at h
      exact ih reg vals vals2 calls c2 n h hn2
    · rw [if_neg h1] at h
      by_cases h2 : slotSetNonNone vals name = true
      · rw [if_pos h2] at h
        exact ih reg vals vals2 calls c2 n h hn2
      · rw [if_neg h2] at h
        rcases hr : resolve reg (_unwrap_optional typ) calls with ⟨r, c3⟩
        rw [hr] at h
        cases r with
        | ok v =>
          rw [ih reg (setattrSlot vals name v) vals2 c3 c2 n h hn2]
          exact getattr_setattr_ne vals n name v (fun he => hn1 he.symm)
        | error e =>
          cases e with
          | runtimeError m => exact ih reg vals vals2 c3 c2 n h hn2
          | keyError m => simp at h
          | valueError m => simp at h
          | typeError m => simp at h
          | userExc t => simp at h

/-- Helper: a successful `autowire` pass never overwrites a slot already set
to a non-None value; the slot keeps that exact value. This holds with no
assumption on the registry. -/
theorem autowire_preserves :
    ∀ (hints : List (String × PyType)) (reg : Registry) (vals vals2 : Slots)
      (calls c2 : Nat) (n : String) (v : PyVal),
    autowire reg hints vals calls = (.ok vals2, c2) →
    getattrSlot vals n = some v → v ≠ PyVal.pyNone →
    getattrSlot vals2 n = some v := by
  intro hints
  induction hints with
  | nil =>
    intro reg vals vals2 calls c2 n v h hg hv
    simp [autowire] at h
    rw [← h.1]
    exact hg
  | cons p rest ih =>
    obtain ⟨name, typ⟩ := p
    intro reg vals vals2 calls c2 n v h hg hv
    simp only [autowire] at h
    by_cases h1 : startsWithUnderscore name = true
    · rw [if_pos h1] at h
      exact ih reg vals vals2 calls c2 n v h hg hv
    · rw [if_neg h1] at h
      by_cases h2 : slotSetNonNone vals name = true
      · rw [if_pos h2] at h
        exact ih reg vals vals2 calls c2 n v h hg hv
      · rw [if_neg h2] at h
        rcases hr : resolve reg (_unwrap_optional typ) calls with ⟨r, c3⟩
        rw [hr] at h
        cases r with
        | ok v2 =>
          have hne : name ≠ n := by
            intro he
            subst he
            exact hv (slotSetNonNone_false_of vals name v (by simpa using h2) hg)
          refine ih reg (setattrSlot vals name v2) vals2 c3 c2 n v h ?_ hv
          rw [getattr_setattr_ne vals n name v2 hne]
          exact hg
        | error e =>
          cases e with
          | runtimeError m => exact ih reg vals vals2 c3 c2 n v h hg hv
          | keyError m => simp at h
          | valueError m => simp at h
          | typeError m => simp at h
          | userExc t => simp at h

/-- Helper: a second `autowire` pass over the result of a successful first
pass reproduces exactly the same slot dictionary (at any starting
invocation counter), provided the registry factories are stateless and the
declared hint names are duplicate-free, as `get_type_hints` guarantees for a
Python class. -/
theorem autowire_again :
    ∀ (hints : List (String × PyType)) (reg : Registry) (vals vals2 : Slots)
      (calls c2 : Nat),
    ConstantFactories reg →
    (hints.map Prod.fst).Nodup →
    autowire reg hints vals calls = (.ok vals2, c2) →
    ∀ calls3, ∃ c3, autowire reg hints vals2 calls3 = (.ok vals2, c3) := by
  intro hints
  induction hints with
  | nil =>
    intro reg vals vals2 calls c2 hc hd h calls3
    exact ⟨calls3, by simp [autowire]⟩
  | cons p rest ih =>
    obtain ⟨name, typ⟩ := p
    intro reg vals vals2 calls c2 hc hd h calls3
    obtain ⟨hd1, hd2⟩ : name ∉ rest.map Prod.fst ∧ (rest.map Prod.fst).Nodup := by
      simpa [List.nodup_cons] using hd
    simp only [autowire] at h ⊢
    by_cases h1 : startsWithUnderscore name = true
    · rw [if_pos h1] at h ⊢
      exact ih reg vals vals2 calls c2 hc hd2 h calls3
    · rw [if_neg h1] at h ⊢
      by_cases h2 : slotSetNonNone vals name = true
      · rw [if_pos h2] at h
        obtain ⟨v, hg, hv⟩ := (slotSetNonNone_true_iff vals name).mp h2
        have hg2 : getattrSlot vals2 name = some v :=
          autowire_preserves rest reg vals vals2 calls c2 name v h hg hv
        have h2b : slotSetNonNone vals2 name = true :=
          (slotSetNonNone_true_iff vals2 name).mpr ⟨v, hg2, hv⟩
        rw [if_pos h2b]
        exact ih reg vals vals2 calls c2 hc hd2 h calls3
      · rw [if_neg h2] at h
        rcases hr : resolve reg (_unwrap_optional typ) calls with ⟨r, c3a⟩
        rw [hr] at h
        cases r with
        | ok v =>
          by_cases hvn : v = PyVal.pyNone
          · subst hvn
            have hg2 : getattrSlot vals2 name = some PyVal.pyNone := by
              rw [autowire_untouched rest reg (setattrSlot vals name PyVal.pyNone)
                    vals2 c3a c2 name h hd1]
              exact getattr_setattr_self vals name PyVal.pyNone
            have h2b : ¬ slotSetNonNone vals2 name = true := by
              unfold slotSetNonNone
              rw [hg2]
              simp
            rw [if_neg h2b]
            have hc1 : (resolve reg (_unwrap_optional typ) calls3).1 = .ok PyVal.pyNone := by
              rw [resolve_fst_const reg hc (_unwrap_optional typ) calls3 calls, hr]
            rcases hr2 : resolve reg (_unwrap_optional typ) calls3 with ⟨r2, c3b⟩
            rw [hr2] at hc1
            simp only [Prod.fst] at hc1
            subst hc1
            obtain ⟨c3, hfin⟩ :=
              ih reg (setattrSlot vals name PyVal.pyNone) vals2 c3a c2 hc hd2 h c3b
            refine ⟨c3, ?_⟩
            show autowire reg rest (setattrSlot vals2 name PyVal.pyNone) c3b
              = (Except.ok vals2, c3)
            rw [setattr_id_of_getattr vals2 name PyVal.pyNone hg2]
            exact hfin
          · have hg2 : getattrSlot vals2 name = some v :=
              autowire_preserves rest reg (setattrSlot vals name v) vals2 c3a c2 name v h
                (getattr_setattr_self vals name v) hvn
            have h2b : slotSetNonNone vals2 name = true :=
              (slotSetNonNone_true_iff vals2 name).mpr ⟨v, hg2, hvn⟩
            rw [if_pos h2b]
            exact ih reg (setattrSlot vals name v) vals2 c3a c2 hc hd2 h calls3
        | error e =>
          cases e with
          | runtimeError m =>
            have hgsame : getattrSlot vals2 name = getattrSlot vals name :=
              autowire_untouched rest reg vals vals2 c3a c2 name h hd1
            have h2b : ¬ slotSetNonNone vals2 name = true := by
              have h2f : slotSetNonNone vals name = false := by simpa using h2
              unfold slotSetNonNone at h2f ⊢
              rw [hgsame]
              simp [h2f]
            rw [if_neg h2b]
            have hc1 : (resolve reg (_unwrap_optional typ) calls3).1
                = .error (.runtimeError m) := by
              rw [resolve_fst_const reg hc (_unwrap_optional typ) calls3 calls, hr]
            rcases hr2 : resolve reg (_unwrap_optional typ) calls3 with ⟨r2, c3b⟩
            rw [hr2] at hc1
            simp only [Prod.fst] at hc1
            subst hc1
            exact ih reg vals vals2 c3a c2 hc hd2 h c3b
          | keyError m => simp at h
          | valueError m => simp at h
          | typeError m => simp at h
          | userExc t => simp at h

/-- C8. Wiring idempotence: for every object (declared hints with the
duplicate-free slot names a Python class yields, any starting slot
dictionary) and every registry of stateless factories, a completed
`wire(instance)` pass followed by a second pass produces exactly the same
populated slot dictionary as the single pass, and a slot already set to a
non-None value before a pass is never overwritten by it: its value survives
unchanged. -/
theorem wire_idempotent :
    ∀ (reg : Registry) (hints : List (String × PyType)) (vals vals2 : Slots)
      (calls c2 : Nat),
    ConstantFactories reg →
    (hints.map Prod.fst).Nodup →
    autowire reg hints vals calls = (.ok vals2, c2) →
    (∃ c3, autowire reg hints vals2 c2 = (.ok vals2, c3))
    ∧ ∀ (n : String) (v : PyVal), getattrSlot vals n = some v → v ≠ PyVal.pyNone →
        getattrSlot vals2 n = some v :=
  fun reg hints vals vals2 calls c2 hc hd h =>
    ⟨autowire_again hints reg vals vals2 calls c2 hc hd h c2,
     fun n v hg hv => autowire_preserves hints reg vals vals2 calls c2 n v h hg hv⟩

/-- Witness for C8: the idempotence theorem applied to a service declaring
one slot `users`, wired against a registry holding a stateless `UsersRepo`
factory, starting from an empty slot dictionary. -/
theorem wire_idempotent_witness :
    (∃ c3, autowire [(usersRepoKind, constUsersFactory)] [("users", usersRepoKind)]
        [("users", PyVal.inst "UsersRepo" 0)] 1
        = (.ok [("users", PyVal.inst "UsersRepo" 0)], c3))
    ∧ ∀ (n : String) (v : PyVal), getattrSlot [] n = some v → v ≠ PyVal.pyNone →
        getattrSlot [("users", PyVal.inst "UsersRepo" 0)] n = some v :=
  wire_idempotent [(usersRepoKind, constUsersFactory)] [("users", usersRepoKind)]
    [] [("users", PyVal.inst "UsersRepo" 0)] 0 1
    (by
      intro p hp c c2
      rw [List.mem_singleton] at hp
      subst hp
      rfl)
    (by decide)
    (by decide)

end ProductKernel
